import Mathlib

/-!
Verification of the transactional core of the `filegarden/backend` repository.

The development shallowly embeds, in Lean:

* the error classification of `impl<S, E> From<S> for TxError<E>` in `src/db.rs`;
* the retry loop of the `transaction!` macro in `src/db.rs`, modelled as a
  fuel-indexed function over an abstract database state (the fuel is only a
  proof device for the source's unbounded `loop`; `none` means the loop has
  not terminated within the given fuel);
* the collision-retry savepoint loop shared by `src/api/routes/v1/users.rs`,
  `email_verification.rs` and `password_reset.rs`;
* the unit of work of `POST /api/v1/email-verification` (delete stale pending
  rows, then the savepoint loop, then an email dispatch);
* the unpadded base64url codec used by `Id` in `src/id.rs` (the `base64`
  crate's `URL_SAFE_NO_PAD` engine: no padding accepted, trailing bits must
  be zero);
* the Argon2 wrapper functions of `src/crypto.rs`, parameterised by the
  Argon2 derivation function itself (an external library).

Database effects (rollback on drop, savepoint rollback, commit visibility)
follow PostgreSQL's documented transaction semantics: a transaction's
tentative state becomes visible exactly when its commit succeeds.
-/

/-- A database-level error as surfaced by the `sqlx` driver: its SQLSTATE
`code()` and its `constraint()` name, both optional. -/
structure DatabaseError where
  code : Option String
  constraint : Option String
deriving DecidableEq

/-- The `sqlx::Error` type, reduced to the structure the source inspects:
either a database-level error or any other driver error (connectivity,
protocol, ...), the latter carried as a plain description. -/
inductive SqlxError where
  | Database (e : DatabaseError)
  | other (msg : String)
deriving DecidableEq

/-- A source error fed to `impl<S, E> From<S> for TxError<E>`: the `castaway`
cast distinguishes values that really are `sqlx::Error` from every other
error type `S`. -/
inductive SourceError where
  | sqlx (e : SqlxError)
  | external (msg : String)
deriving DecidableEq

deriving instance DecidableEq for Except

/-- The error result of a database transaction (`TxError<E>` in `src/db.rs`). -/
inductive TxError (E : Type) where
  | Abort (e : E)
  | Retry
deriving DecidableEq

/-- The result of a database transaction (`TxResult<T, E>` in `src/db.rs`). -/
abbrev TxResult (T E : Type) := Except (TxError E) T

/-- The SQLSTATE code for serialization failures (`src/db.rs`). -/
def SERIALIZATION_FAILURE : String := "40001"

/-- The `From<S> for TxError<E>` conversion of `src/db.rs`: a value that is a
`sqlx::Error::Database` whose code is `40001` becomes `Retry`; everything
else becomes `Abort` of the wrapped source error (`source.into()`, modelled
by `wrap`). -/
def txErrorFrom {E : Type} (wrap : SourceError → E) (source : SourceError) : TxError E :=
  match source with
  | .sqlx (.Database d) =>
      if d.code = some SERIALIZATION_FAILURE then .Retry else .Abort (wrap source)
  | _ => .Abort (wrap source)

/-- The spec's classification: an error is a serialization conflict iff it is
a database-level error whose SQLSTATE code equals `40001`. -/
def isSerializationConflict (source : SourceError) : Prop :=
  ∃ d, source = .sqlx (.Database d) ∧ d.code = some SERIALIZATION_FAILURE

instance (source : SourceError) : Decidable (isSerializationConflict source) := by
  unfold isSerializationConflict
  match source with
  | .sqlx (.Database d) =>
      by_cases h : d.code = some SERIALIZATION_FAILURE
      · exact .isTrue ⟨d, rfl, h⟩
      · exact .isFalse (by rintro ⟨d', hd, hc⟩; cases hd; exact h hc)
  | .sqlx (.other m) => exact .isFalse (by rintro ⟨d', hd, _⟩; cases hd)
  | .external m => exact .isFalse (by rintro ⟨d', hd, _⟩; cases hd)

/-- C1: the `From` conversion yields `Retry` exactly on database-level errors
whose SQLSTATE is `40001`, and turns every other error into `Abort` carrying
that (wrapped) error. -/
theorem c1_conflict_classification {E : Type} (wrap : SourceError → E)
    (source : SourceError) :
    (txErrorFrom wrap source = .Retry ↔ isSerializationConflict source) ∧
      (¬ isSerializationConflict source → txErrorFrom wrap source = .Abort (wrap source)) := by
  constructor
  · constructor
    · intro h
      match source with
      | .sqlx (.Database d) =>
          by_cases hc : d.code = some SERIALIZATION_FAILURE
          · exact ⟨d, rfl, hc⟩
          · simp [txErrorFrom, hc] at h
      | .sqlx (.other m) => simp [txErrorFrom] at h
      | .external m => simp [txErrorFrom] at h
    · rintro ⟨d, rfl, hc⟩
      simp [txErrorFrom, hc]
  · intro h
    match source with
    | .sqlx (.Database d) =>
        have hc : ¬ d.code = some SERIALIZATION_FAILURE := fun hc => h ⟨d, rfl, hc⟩
        simp [txErrorFrom, hc]
    | .sqlx (.other m) => simp [txErrorFrom]
    | .external m => simp [txErrorFrom]

/-- Closed instance of `c1_conflict_classification`: a serialization failure
is retried; a unique-constraint violation (SQLSTATE `23505`) and a
connectivity failure are aborted with the original error. -/
theorem c1_conflict_classification_witness :
    txErrorFrom (E := SourceError) id (.sqlx (.Database ⟨some "40001", none⟩)) = .Retry ∧
      txErrorFrom (E := SourceError) id
          (.sqlx (.Database ⟨some "23505", some "users_pkey"⟩)) =
        .Abort (.sqlx (.Database ⟨some "23505", some "users_pkey"⟩)) ∧
      txErrorFrom (E := SourceError) id (.sqlx (.other "connection reset")) =
        .Abort (.sqlx (.other "connection reset")) := by
  refine ⟨?_, ?_, ?_⟩
  · exact (c1_conflict_classification id _).1.2 ⟨⟨some "40001", none⟩, rfl, rfl⟩
  · exact (c1_conflict_classification id _).2 (by decide)
  · exact (c1_conflict_classification id _).2 (by decide)

/-- The retry loop of the `transaction!` macro in `src/db.rs`, over an
abstract database state `σ`. Per attempt `n`: `begin` may fail
(`beginErr n`), then the callback runs on the state visible at transaction
start and produces a `TxResult` plus a tentative state, then `commit` may
fail (`commitErr n`). Errors raised by `begin` and `commit` pass through the
same `From` conversion as in the source (`txErrorFrom`). An `Abort` or a
failed commit drops the transaction, so the visible state stays `s`; a
successful commit makes the tentative state visible. The last argument is
fuel for the source's unbounded `loop`: `none` means the loop has not
returned within that many iterations. -/
def runTransaction {E T σ : Type} (wrap : SourceError → E)
    (beginErr commitErr : Nat → Option SqlxError)
    (uow : Nat → σ → TxResult T E × σ) (s : σ) :
    Nat → Nat → Option (Except E T × σ)
  | _, 0 => none
  | n, fuel + 1 =>
      let attempt : TxResult T E × σ :=
        match beginErr n with
        | some e => (.error (txErrorFrom wrap (.sqlx e)), s)
        | none =>
            match uow n s with
            | (.error err, _) => (.error err, s)
            | (.ok v, s') =>
                match commitErr n with
                | some e => (.error (txErrorFrom wrap (.sqlx e)), s)
                | none => (.ok v, s')
      match attempt with
      | (.ok v, s') => some (.ok v, s')
      | (.error (.Abort e), _) => some (.error e, s)
      | (.error .Retry, _) => runTransaction wrap beginErr commitErr uow s (n + 1) fuel

/-- C2 counterexample: a unit of work returns `Success(7)` and its commit
fails with a connectivity error — not a serialization conflict — yet the
executor returns `Err`, not `Ok(7)` with the committed state, refuting the
claim as stated. -/
theorem c2_commit_counterexample :
    runTransaction (E := SourceError) (σ := Nat) id (fun _ => none)
        (fun _ => some (.other "connection reset"))
        (fun _ s => (.ok 7, s + 1)) 0 0 1 =
      some (.error (.sqlx (.other "connection reset")), 0) ∧
      runTransaction (E := SourceError) (σ := Nat) id (fun _ => none)
          (fun _ => some (.other "connection reset"))
          (fun _ s => (.ok 7, s + 1)) 0 0 1 ≠
        some (.ok 7, 1) := by
  constructor
  · rfl
  · decide

/-- C2 (amended): if the unit of work returns `Success(v)` with tentative
state `s'` and the transaction began normally, then: a successful commit
makes the executor return `Ok(v)` with `s'` now visible; a commit failure
with SQLSTATE `40001` makes the executor retry the whole unit of work (the
run equals a fresh run starting at the next attempt); and a commit failure
with any other error makes it return `Err` of that wrapped error, rolled
back. -/
theorem c2_success_commit {E T σ : Type} (wrap : SourceError → E)
    (beginErr commitErr : Nat → Option SqlxError) (uow : Nat → σ → TxResult T E × σ)
    (s : σ) (n fuel : Nat) (v : T) (s' : σ)
    (hb : beginErr n = none) (hu : uow n s = (.ok v, s')) :
    (commitErr n = none →
        runTransaction wrap beginErr commitErr uow s n (fuel + 1) = some (.ok v, s')) ∧
      (∀ e, commitErr n = some e → isSerializationConflict (.sqlx e) →
        runTransaction wrap beginErr commitErr uow s n (fuel + 1) =
          runTransaction wrap beginErr commitErr uow s (n + 1) fuel) ∧
      (∀ e, commitErr n = some e → ¬ isSerializationConflict (.sqlx e) →
        runTransaction wrap beginErr commitErr uow s n (fuel + 1) =
          some (.error (wrap (.sqlx e)), s)) := by
  refine ⟨?_, ?_, ?_⟩
  · intro hc
    simp [runTransaction, hb, hu, hc]
  · intro e hc hser
    have hretry : txErrorFrom wrap (.sqlx e) = .Retry := by
      obtain ⟨d, hd, hcode⟩ := hser
      cases hd
      simp [txErrorFrom, hcode]
    simp [runTransaction, hb, hu, hc, hretry]
  · intro e hc hser
    have habort : txErrorFrom wrap (.sqlx e) = .Abort (wrap (.sqlx e)) := by
      match e with
      | .Database d =>
          have hcode : ¬ d.code = some SERIALIZATION_FAILURE := fun hcode =>
            hser ⟨d, rfl, hcode⟩
          simp [txErrorFrom, hcode]
      | .other m => simp [txErrorFrom]
    simp [runTransaction, hb, hu, hc, habort]

/-- Closed instance of `c2_success_commit`: with no commit failure the
executor returns `Ok(7)` and the incremented state is visible; with a
serialization failure at commit on every attempt, one more attempt of fuel
gives the same run as starting from the next attempt. -/
theorem c2_success_commit_witness :
    runTransaction (E := SourceError) (σ := Nat) id (fun _ => none) (fun _ => none)
        (fun _ s => (.ok 7, s + 1)) 0 0 3 = some (.ok 7, 1) ∧
      runTransaction (E := SourceError) (σ := Nat) id (fun _ => none)
          (fun _ => some (.Database ⟨some "40001", none⟩))
          (fun _ s => (.ok 7, s + 1)) 0 0 3 =
        runTransaction (E := SourceError) (σ := Nat) id (fun _ => none)
          (fun _ => some (.Database ⟨some "40001", none⟩))
          (fun _ s => (.ok 7, s + 1)) 0 1 2 := by
  constructor
  · exact (c2_success_commit id _ _ _ 0 0 2 7 1 rfl rfl).1 rfl
  · exact (c2_success_commit id _ _ _ 0 0 2 7 1 rfl rfl).2.1
      (.Database ⟨some "40001", none⟩) rfl ⟨⟨some "40001", none⟩, rfl, rfl⟩

/-- C3: if the unit of work returns `Abort(e)`, the executor returns
`Err(e)` and the visible state is the initial state `s` — the tentative
state `t` built inside the transaction (including any savepoint-scoped
sub-attempts it contains) is discarded wholesale. -/
theorem c3_abort_rolls_back {E T σ : Type} (wrap : SourceError → E)
    (beginErr commitErr : Nat → Option SqlxError) (uow : Nat → σ → TxResult T E × σ)
    (s t : σ) (n fuel : Nat) (e : E)
    (hb : beginErr n = none) (hu : uow n s = (.error (.Abort e), t)) :
    runTransaction wrap beginErr commitErr uow s n (fuel + 1) = some (.error e, s) := by
  simp [runTransaction, hb, hu]

/-- C4: a unit of work that always yields `Retry` makes the executor loop
forever — for every amount of fuel and every starting attempt the run has
not produced any value. -/
theorem c4_retry_diverges {E T σ : Type} (wrap : SourceError → E)
    (beginErr commitErr : Nat → Option SqlxError) (uow : Nat → σ → TxResult T E × σ)
    (s : σ)
    (hb : ∀ n, beginErr n = none)
    (hu : ∀ n s', (uow n s').1 = .error .Retry) :
    ∀ fuel n, runTransaction wrap beginErr commitErr uow s n fuel = none := by
  intro fuel
  induction fuel with
  | zero => intro n; rfl
  | succ fuel ih =>
      intro n
      rcases hval : uow n s with ⟨r, t⟩
      have hr : r = Except.error TxError.Retry := by
        have hu' := hu n s
        rw [hval] at hu'
        exact hu'
      subst hr
      rw [runTransaction]
      simp [hb n, hval, ih (n + 1)]

/-- Closed instance of `c4_retry_diverges` at fuel 4. -/
theorem c4_retry_diverges_witness :
    runTransaction (E := SourceError) (T := Nat) (σ := Nat) id (fun _ => none) (fun _ => none)
        (fun _ s => (.error .Retry, s)) 0 0 4 = none :=
  c4_retry_diverges id _ _ _ 0 (fun _ => rfl) (fun _ _ => rfl) 4 0

/-- The guard of the collision-retry match arm
(`Err(sqlx::Error::Database(error)) if error.constraint() == Some(pkey)` in
`src/api/routes/v1/users.rs` and its siblings): the loop retries exactly on
database-level errors whose reported constraint name is the primary-key
constraint of the target table. -/
def pkRetryGuard (pkey : String) (e : SqlxError) : Bool :=
  match e with
  | .Database d => d.constraint == some pkey
  | .other _ => false

/-- The collision-retry savepoint loop (`loop { ... }` in
`src/api/routes/v1/users.rs` lines 69–94, `email_verification.rs` lines
154–181, `password_reset.rs` lines 131–158). `insert n st` is the insert
statement executed with the `n`-th generated identifier against savepoint
state `st`. On a retryable failure the savepoint is rolled back (the state
passed to the next attempt is unchanged) and the identifier is rerolled (the
attempt index advances); on any other failure the error propagates
(`result => result?`); on success the savepoint is released and the loop
breaks with the new state and the successful attempt's index. The final
`Nat` is fuel for the source's unbounded `loop`. -/
def savepointRetryLoop {σ : Type} (pkey : String)
    (insert : Nat → σ → Except SqlxError σ) (s : σ) :
    Nat → Nat → Option (Except SqlxError (σ × Nat))
  | _, 0 => none
  | n, fuel + 1 =>
      match insert n s with
      | .ok s' => some (.ok (s', n))
      | .error e =>
          if pkRetryGuard pkey e then savepointRetryLoop pkey insert s (n + 1) fuel
          else some (.error e)

/-- The claim's description of a retryable collision: a unique-constraint
violation (SQLSTATE `23505`) whose violated constraint is, by name, the
primary-key constraint of the target table. -/
def isPkUniqueViolation (pkey : String) (e : SqlxError) : Prop :=
  ∃ d, e = .Database d ∧ d.code = some "23505" ∧ d.constraint = some pkey

/-- C5: suppose the insert of attempt `n` fails with error `e`, and (as
PostgreSQL guarantees for an `INSERT` against a primary-key constraint) any
database error naming the primary-key constraint is a unique-constraint
violation. Then the retry guard fires exactly on unique-constraint
violations of the primary key, and the loop either rolls back to the
savepoint, rerolls and retries (when the guard fires) or returns the error
after this single attempt (otherwise) — so a non-PK unique violation, e.g.
on an email column, propagates after exactly one attempt and is never
retried. -/
theorem c5_collision_guard {σ : Type} (pkey : String)
    (insert : Nat → σ → Except SqlxError σ) (s : σ) (n fuel : Nat) (e : SqlxError)
    (hins : insert n s = .error e)
    (hpg : ∀ d, e = .Database d → d.constraint = some pkey → d.code = some "23505") :
    (pkRetryGuard pkey e = true ↔ isPkUniqueViolation pkey e) ∧
      savepointRetryLoop pkey insert s n (fuel + 1) =
        (if pkRetryGuard pkey e then savepointRetryLoop pkey insert s (n + 1) fuel
          else some (.error e)) := by
  constructor
  · constructor
    · intro hg
      match e with
      | .Database d =>
          have hc : d.constraint = some pkey := by
            simpa [pkRetryGuard] using hg
          exact ⟨d, rfl, hpg d rfl hc, hc⟩
      | .other m => simp [pkRetryGuard] at hg
    · rintro ⟨d, rfl, _, hc⟩
      simp [pkRetryGuard, hc]
  · rw [savepointRetryLoop, hins]

/-- Closed instance of `c5_collision_guard`: a unique violation of
`users_pkey` makes the loop retry with a rerolled identifier, while a unique
violation of an email-uniqueness constraint is returned from the loop after
the single failed attempt. -/
theorem c5_collision_guard_witness :
    pkRetryGuard "users_pkey" (.Database ⟨some "23505", some "users_pkey"⟩) = true ∧
      savepointRetryLoop (σ := List Nat) "users_pkey"
          (fun n st =>
            if n = 0 then .error (.Database ⟨some "23505", some "users_email_key"⟩)
            else .ok (st ++ [n]))
          [] 0 2 =
        some (.error (.Database ⟨some "23505", some "users_email_key"⟩)) := by
  constructor
  · exact (c5_collision_guard (σ := List Nat) "users_pkey"
      (fun _ st => .error (.Database ⟨some "23505", some "users_pkey"⟩)) [] 0 0
      (.Database ⟨some "23505", some "users_pkey"⟩) rfl
      (fun d hd _ => by cases hd; rfl)).1.2
      ⟨⟨some "23505", some "users_pkey"⟩, rfl, rfl, rfl⟩
  · have h := (c5_collision_guard (σ := List Nat) "users_pkey"
      (fun n st =>
        if n = 0 then .error (.Database ⟨some "23505", some "users_email_key"⟩)
        else .ok (st ++ [n]))
      [] 0 1 (.Database ⟨some "23505", some "users_email_key"⟩) rfl
      (fun d hd hc => by cases hd; simp at hc)).2
    simpa [pkRetryGuard] using h

/-- A row of the `unverified_emails` table, as touched by
`POST /api/v1/email-verification`: its primary key `token_hash`, the email
address, and the optional `user_id`. Token hashes are abstracted to `Nat`. -/
structure UERow where
  tokenHash : Nat
  email : String
  userId : Option Nat
deriving DecidableEq

/-- The `DELETE FROM unverified_emails WHERE user_id IS NULL AND email = $1`
statement of `email_verification.rs` (line 144). -/
def deleteStaleUnverified (e : String) (s : List UERow) : List UERow :=
  s.filter (fun r => !(r.userId == none && r.email == e))

/-- The `INSERT INTO unverified_emails (token_hash, email) VALUES ($1, $2)`
statement of `email_verification.rs` (line 161), with PostgreSQL's
primary-key semantics: inserting a `token_hash` already present fails with a
unique-constraint violation naming `unverified_emails_pkey`; otherwise the
row is appended with a NULL `user_id`. -/
def insertUnverifiedEmail (e : String) (h : Nat) (s : List UERow) :
    Except SqlxError (List UERow) :=
  if s.any (fun r => r.tokenHash == h)
  then .error (.Database ⟨some "23505", some "unverified_emails_pkey"⟩)
  else .ok (s ++ [⟨h, e, none⟩])

/-- The transactional part of the unit of work of
`POST /api/v1/email-verification` (lines 144–190) on the fresh-email path:
delete the stale pending rows for `e`, then run the collision-retry
savepoint loop inserting the hash of the `n`-th generated token (`tok n`).
A loop error propagates through `?`, i.e. through the `From` conversion; the
fuel-exhaustion case cannot arise once the loop terminates and is mapped to
`Retry` only so that it is never mistaken for success. -/
def emailVerificationUow (e : String) (tok : Nat → Nat) (loopFuel : Nat)
    (st : List UERow) : TxResult Unit SourceError × List UERow :=
  let s1 := deleteStaleUnverified e st
  match savepointRetryLoop "unverified_emails_pkey"
      (fun n st2 => insertUnverifiedEmail e (tok n) st2) s1 0 loopFuel with
  | some (.ok (s2, _)) => (.ok (), s2)
  | some (.error err) => (.error (txErrorFrom id (.sqlx err)), st)
  | none => (.error .Retry, st)

/-- If the inserts of attempts `n, …, n+k-1` all fail retryably and the
insert of attempt `n+k` succeeds, the savepoint loop succeeds at attempt
`n+k` with the state that single successful insert produced. -/
theorem savepointRetryLoop_eventual_success {σ : Type} (pkey : String)
    (insert : Nat → σ → Except SqlxError σ) (s : σ) (s' : σ) (k : Nat) :
    ∀ n m, (∀ i, i < k → ∃ e, insert (n + i) s = .error e ∧ pkRetryGuard pkey e = true) →
      insert (n + k) s = .ok s' →
      savepointRetryLoop pkey insert s n (k + 1 + m) = some (.ok (s', n + k)) := by
  induction k with
  | zero =>
      intro n m _ hok
      rw [Nat.add_zero] at hok ⊢
      rw [show 0 + 1 + m = m + 1 by omega]
      rw [savepointRetryLoop, hok]
      simp
  | succ k ih =>
      intro n m hcol hok
      obtain ⟨e, he, hg⟩ := hcol 0 (Nat.succ_pos k)
      rw [Nat.add_zero] at he
      have hstep : savepointRetryLoop pkey insert s n (k + 1 + 1 + m) =
          savepointRetryLoop pkey insert s (n + 1) (k + 1 + m) := by
        have : k + 1 + 1 + m = (k + 1 + m) + 1 := by omega
        rw [this, savepointRetryLoop, he]
        simp [hg]
      have hcol' : ∀ i, i < k → ∃ e2, insert (n + 1 + i) s = .error e2 ∧
          pkRetryGuard pkey e2 = true := by
        intro i hi
        have := hcol (i + 1) (by omega)
        rwa [show n + (i + 1) = n + 1 + i by omega] at this
      have hok' : insert (n + 1 + k) s = .ok s' := by
        rwa [show n + (k + 1) = n + 1 + k by omega] at hok
      rw [show k + 1 + 1 + m = k + 1 + (m + 1) by omega] at hstep ⊢
      rw [hstep]
      rw [ih (n + 1) m hcol' hok']
      congr 1
      simp
      omega

/-- C6: suppose the token hashes drawn for the first `k` insert attempts
each collide with a row that survives the stale-row deletion, while the
`(k+1)`-st draw is fresh. Then the whole unit of work — deletion, `k` failed
savepoint attempts, successful insert — commits on a conflict-free run of
the executor, and the committed state is exactly the deletion's survivors
followed by the single new row: the deletion and the final insert are both
present, and none of the `k` failed attempts left any residual row. -/
theorem c6_savepoint_commit (s : List UERow) (e : String) (tok : Nat → Nat)
    (k m : Nat)
    (hcol : ∀ i, i < k →
      (deleteStaleUnverified e s).any (fun r => r.tokenHash == tok i) = true)
    (hfresh : (deleteStaleUnverified e s).any (fun r => r.tokenHash == tok k) = false) :
    runTransaction id (fun _ => none) (fun _ => none)
        (fun _ st => emailVerificationUow e tok (k + 1) st) s 0 (m + 1) =
      some (.ok (), deleteStaleUnverified e s ++ [⟨tok k, e, none⟩]) := by
  have hloop : savepointRetryLoop "unverified_emails_pkey"
      (fun n st2 => insertUnverifiedEmail e (tok n) st2) (deleteStaleUnverified e s) 0
      (k + 1) = some (.ok (deleteStaleUnverified e s ++ [⟨tok k, e, none⟩], k)) := by
    have := savepointRetryLoop_eventual_success "unverified_emails_pkey"
      (fun n st2 => insertUnverifiedEmail e (tok n) st2) (deleteStaleUnverified e s)
      (deleteStaleUnverified e s ++ [⟨tok k, e, none⟩]) k 0 0
      (fun i hi => by
        refine ⟨.Database ⟨some "23505", some "unverified_emails_pkey"⟩, ?_, ?_⟩
        · simp only [Nat.zero_add]
          unfold insertUnverifiedEmail
          rw [hcol i hi]
          simp
        · simp [pkRetryGuard])
      (by
        simp only [Nat.zero_add]
        unfold insertUnverifiedEmail
        rw [hfresh]
        simp)
    simpa using this
  have huow : emailVerificationUow e tok (k + 1) s =
      (.ok (), deleteStaleUnverified e s ++ [⟨tok k, e, none⟩]) := by
    unfold emailVerificationUow
    simp [hloop]
  rw [runTransaction]
  simp [huow]

/-- Closed instance of `c6_savepoint_commit`: a stale pending row for the
address is deleted, the first token draw collides with a surviving row of
another address, the second draw is fresh, and the committed state holds
exactly the survivor and the one new row. -/
theorem c6_savepoint_commit_witness :
    runTransaction id (fun _ => none) (fun _ => none)
        (fun _ st => emailVerificationUow "a@b" (fun n => if n = 0 then 9 else 7) 2 st)
        [⟨5, "a@b", none⟩, ⟨9, "c@d", some 1⟩] 0 1 =
      some (.ok (), [⟨9, "c@d", some 1⟩, ⟨7, "a@b", none⟩]) := by
  have h := c6_savepoint_commit [⟨5, "a@b", none⟩, ⟨9, "c@d", some 1⟩] "a@b"
    (fun n => if n = 0 then 9 else 7) 1 0 (by decide) (by decide)
  simpa using h

/-- The unit of work of `POST /api/v1/email-verification` together with the
emails it dispatches. In the source (lines 183–188), `VerificationMessage
{ ... }.to(...).send()` runs *inside* the `transaction!` callback, right
before it returns `Ok(())`, and `SendMessage::send` (`src/email.rs` lines
148–152) spawns the SMTP delivery immediately — it is not part of the
transaction and is not undone by a rollback. The third component lists the
recipient addresses dispatched during this execution of the callback. -/
def emailVerificationUowEmails (e : String) (tok : Nat → Nat) (loopFuel : Nat)
    (st : List UERow) : TxResult Unit SourceError × List UERow × List String :=
  match emailVerificationUow e tok loopFuel st with
  | (.ok (), s2) => (.ok (), s2, [e])
  | (r, s2) => (r, s2, [])

/-- The `transaction!` retry loop of `src/db.rs` observing email dispatches:
identical to `runTransaction`, except that each invocation of the callback
appends the emails it spawned to the log `sent`, whether or not that
attempt's transaction goes on to commit — spawned sends are outside the
transaction and survive rollback and retry. -/
def runTransactionEmails {E T σ : Type} (wrap : SourceError → E)
    (beginErr commitErr : Nat → Option SqlxError)
    (uow : Nat → σ → TxResult T E × σ × List String) (s : σ) (sent : List String) :
    Nat → Nat → Option (Except E T × σ × List String)
  | _, 0 => none
  | n, fuel + 1 =>
      match beginErr n with
      | some e =>
          match txErrorFrom wrap (.sqlx e) with
          | .Abort e2 => some (.error e2, s, sent)
          | .Retry => runTransactionEmails wrap beginErr commitErr uow s sent (n + 1) fuel
      | none =>
          match uow n s with
          | (.error (.Abort e2), _, ems) => some (.error e2, s, sent ++ ems)
          | (.error .Retry, _, ems) =>
              runTransactionEmails wrap beginErr commitErr uow s (sent ++ ems) (n + 1) fuel
          | (.ok v, s', ems) =>
              match commitErr n with
              | none => some (.ok v, s', sent ++ ems)
              | some e =>
                  match txErrorFrom wrap (.sqlx e) with
                  | .Abort e2 => some (.error e2, s, sent ++ ems)
                  | .Retry =>
                      runTransactionEmails wrap beginErr commitErr uow s (sent ++ ems)
                        (n + 1) fuel

/-- C7 evidence: a fresh-email request whose first commit fails with a
serialization conflict. The first execution of the unit of work dispatches
the verification email before its transaction commits; the executor then
retries, and the retry dispatches the email again. The committed state holds
one row, but two emails to the same address have been sent — the unit of
work did not defer its external side effect until after commit. -/
theorem c7_email_sent_before_commit :
    runTransactionEmails id (fun _ => none)
        (fun n => if n = 0 then some (.Database ⟨some "40001", none⟩) else none)
        (fun _ st => emailVerificationUowEmails "x@y" (fun _ => 1) 1 st) [] [] 0 2 =
      some (.ok (), [⟨1, "x@y", none⟩], ["x@y", "x@y"]) := by
  decide

/-- Closed instance of `c3_abort_rolls_back`: the unit of work first runs a
collision-retry savepoint loop (one rolled-back collision, then a successful
insert) and then aborts with a business error; the executor returns that
error and the visible state is the untouched initial state. -/
theorem c3_abort_rolls_back_witness :
    runTransaction (E := String) (T := Nat) (σ := List Nat) (fun _ => "db error")
        (fun _ => none) (fun _ => none)
        (fun _ st =>
          match savepointRetryLoop "t_pkey"
              (fun n l => if n = 0 then .error (.Database ⟨some "23505", some "t_pkey"⟩)
                else .ok (l ++ [n]))
              st 0 3 with
          | some (.ok (l2, _)) => (.error (.Abort "business failure"), l2)
          | _ => (.error (.Abort "business failure"), st))
        [0] 0 1 =
      some (.error "business failure", [0]) :=
  c3_abort_rolls_back (fun _ => "db error") (fun _ => none) (fun _ => none) _ [0] [0, 1]
    0 0 "business failure" rfl (by decide)

/-- The 64-character alphabet of the `base64` crate's `URL_SAFE` engine. -/
def B64_ALPHABET : List Char :=
  "ABCDEFGHIJKLMNOPQRSTUVWXYZabcdefghijklmnopqrstuvwxyz0123456789-_".toList

/-- The character encoding a 6-bit value. -/
def charOfSextet (n : Nat) : Char := B64_ALPHABET.getD n 'A'

/-- Position of a character in a list, starting from index `i`. -/
def charIndex (c : Char) : List Char → Nat → Option Nat
  | [], _ => none
  | a :: rest, i => if a == c then some i else charIndex c rest (i + 1)

/-- The 6-bit value of an alphabet character; `none` for characters outside
the alphabet (the decoder's invalid-byte error). -/
def sextetOfChar (c : Char) : Option Nat := charIndex c B64_ALPHABET 0

/-- Base64 encoding of a byte sequence to 6-bit values, unpadded: complete
3-byte groups yield 4 sextets; a trailing byte yields 2 and a trailing pair
3, with the unused low bits of the last sextet zero. -/
def encodeChunks : List Nat → List Nat
  | [] => []
  | [b1] => [b1 / 4, b1 % 4 * 16]
  | [b1, b2] => [b1 / 4, b1 % 4 * 16 + b2 / 16, b2 % 16 * 4]
  | b1 :: b2 :: b3 :: rest =>
      b1 / 4 :: (b1 % 4 * 16 + b2 / 16) :: (b2 % 16 * 4 + b3 / 64) :: b3 % 64 ::
        encodeChunks rest

/-- Base64 decoding of 6-bit values to bytes, as the `URL_SAFE_NO_PAD`
engine decodes: a single trailing sextet is an invalid length; trailing
groups of 2 or 3 sextets must have zero unused low bits
(`decode_allow_trailing_bits` is off), else the invalid-last-symbol error. -/
def decodeChunks : List Nat → Option (List Nat)
  | [] => some []
  | [_] => none
  | [c1, c2] => if c2 % 16 = 0 then some [c1 * 4 + c2 / 16] else none
  | [c1, c2, c3] =>
      if c3 % 4 = 0 then some [c1 * 4 + c2 / 16, c2 % 16 * 16 + c3 / 4] else none
  | c1 :: c2 :: c3 :: c4 :: rest =>
      match decodeChunks rest with
      | some bs =>
          some ((c1 * 4 + c2 / 16) :: (c2 % 16 * 16 + c3 / 4) :: (c3 % 4 * 64 + c4) :: bs)
      | none => none

/-- `URL_SAFE_NO_PAD.encode` on a byte sequence. -/
def b64Encode (bs : List Nat) : List Char := (encodeChunks bs).map charOfSextet

/-- Translate every character to its 6-bit value; `none` on the first
character outside the alphabet. -/
def sextetsOfChars : List Char → Option (List Nat)
  | [] => some []
  | c :: cs =>
      match sextetOfChar c, sextetsOfChars cs with
      | some v, some vs => some (v :: vs)
      | _, _ => none

/-- `URL_SAFE_NO_PAD.decode` on a string: `none` models the `DecodeError` of
the `base64` crate (invalid byte, invalid length, or nonzero trailing
bits). -/
def b64Decode (cs : List Char) : Option (List Nat) :=
  match sextetsOfChars cs with
  | some vs => decodeChunks vs
  | none => none

/-- The error type `id::Error` of `src/id.rs`: a Base64 decode failure, or a
decoded size different from the expected size. -/
inductive IdError where
  | base64
  | size (expected found : Nat)
deriving DecidableEq

/-- `impl Display for Id<T>` (`src/id.rs` lines 57–61): the text form is the
unpadded base64url encoding of the raw bytes. -/
def idToText (bs : List Nat) : List Char := b64Encode bs

/-- `impl FromStr for Id<[u8; N]>` (`src/id.rs` lines 97–109): decode, then
convert to the fixed size `N`, reporting `Size` with the expected and found
byte counts when the decoded length differs. -/
def idFromStrSized (N : Nat) (s : List Char) : Except IdError (List Nat) :=
  match b64Decode s with
  | none => .error .base64
  | some bs => if bs.length = N then .ok bs else .error (.size N bs.length)

/-- `impl FromStr for Id<Vec<u8>>` (`src/id.rs` lines 88–95): decode and
accept whatever byte length results. -/
def idFromStrDyn (s : List Char) : Except IdError (List Nat) :=
  match b64Decode s with
  | none => .error .base64
  | some bs => .ok bs

theorem sextet_char_roundtrip : ∀ n, n < 64 → sextetOfChar (charOfSextet n) = some n := by
  decide

theorem encodeChunks_bound : ∀ bs : List Nat, (∀ b ∈ bs, b < 256) →
    ∀ c ∈ encodeChunks bs, c < 64
  | [], _, c, hc => by simp [encodeChunks] at hc
  | [b1], h, c, hc => by
      have hb1 : b1 < 256 := h b1 (by simp)
      simp only [encodeChunks, List.mem_cons, List.not_mem_nil, or_false] at hc
      rcases hc with hc | hc <;> omega
  | [b1, b2], h, c, hc => by
      have hb1 : b1 < 256 := h b1 (by simp)
      have hb2 : b2 < 256 := h b2 (by simp)
      simp only [encodeChunks, List.mem_cons, List.not_mem_nil, or_false] at hc
      rcases hc with hc | hc | hc <;> omega
  | b1 :: b2 :: b3 :: b4 :: rest, h, c, hc => by
      have hb1 : b1 < 256 := h b1 (by simp)
      have hb2 : b2 < 256 := h b2 (by simp)
      have hb3 : b3 < 256 := h b3 (by simp)
      have ih := encodeChunks_bound (b4 :: rest) (fun b hb => h b (by simp at hb ⊢; tauto))
      simp only [encodeChunks, List.mem_cons] at hc
      rcases hc with hc | hc | hc | hc | hc
      · omega
      · omega
      · omega
      · omega
      · exact ih c hc
  | [b1, b2, b3], h, c, hc => by
      have hb1 : b1 < 256 := h b1 (by simp)
      have hb2 : b2 < 256 := h b2 (by simp)
      have hb3 : b3 < 256 := h b3 (by simp)
      simp only [encodeChunks, List.mem_cons, List.not_mem_nil, or_false] at hc
      rcases hc with hc | hc | hc | hc <;> omega

theorem decode_encodeChunks : ∀ bs : List Nat, (∀ b ∈ bs, b < 256) →
    decodeChunks (encodeChunks bs) = some bs
  | [], _ => rfl
  | [b1], h => by
      have hb1 : b1 < 256 := h b1 (by simp)
      simp only [encodeChunks, decodeChunks]
      rw [if_pos (by omega)]
      congr 2
      omega
  | [b1, b2], h => by
      have hb1 : b1 < 256 := h b1 (by simp)
      have hb2 : b2 < 256 := h b2 (by simp)
      simp only [encodeChunks, decodeChunks]
      rw [if_pos (by omega)]
      congr 3
      · omega
      · omega
  | b1 :: b2 :: b3 :: rest, h => by
      have hb1 : b1 < 256 := h b1 (by simp)
      have hb2 : b2 < 256 := h b2 (by simp)
      have hb3 : b3 < 256 := h b3 (by simp)
      have ih := decode_encodeChunks rest (fun b hb => h b (by simp [hb]))
      simp only [encodeChunks, decodeChunks, ih]
      congr 4
      · omega
      · omega
      · omega

theorem sextets_map_roundtrip : ∀ l : List Nat, (∀ v ∈ l, v < 64) →
    sextetsOfChars (l.map charOfSextet) = some l
  | [], _ => rfl
  | v :: rest, h => by
      have hv : v < 64 := h v (by simp)
      have ih := sextets_map_roundtrip rest (fun x hx => h x (by simp [hx]))
      simp only [List.map_cons, sextetsOfChars, ih, sextet_char_roundtrip v hv]

theorem b64_roundtrip (bs : List Nat) (h : ∀ b ∈ bs, b < 256) :
    b64Decode (b64Encode bs) = some bs := by
  unfold b64Encode b64Decode
  rw [sextets_map_roundtrip (encodeChunks bs) (encodeChunks_bound bs h)]
  exact decode_encodeChunks bs h

/-- C8: for every expected byte length `N`, decoding the text encoding of an
identifier of `N` bytes yields the identifier back; and every input string
whose base64url decoding has a byte length other than `N` fails with the
`Size` error reporting the expected size `N` and the found size — the parser
is a total function that neither truncates nor pads. -/
theorem c8_id_text_roundtrip (N : Nat) (bs : List Nat) (s : List Char)
    (hlen : bs.length = N) (hbytes : ∀ b ∈ bs, b < 256) :
    idFromStrSized N (idToText bs) = .ok bs ∧
      (∀ bs2, b64Decode s = some bs2 → bs2.length ≠ N →
        idFromStrSized N s = .error (.size N bs2.length)) := by
  constructor
  · unfold idFromStrSized idToText
    rw [b64_roundtrip bs hbytes]
    simp [hlen]
  · intro bs2 hdec hne
    unfold idFromStrSized
    rw [hdec]
    simp [hne]

/-- Closed instance of `c8_id_text_roundtrip` at `N = 2`: the two-byte
identifier `[1, 255]` round-trips through its text form, and the string
`"AQ"`, which decodes to the single byte `[1]`, fails with
`Size (expected 2) (found 1)`. -/
theorem c8_id_text_roundtrip_witness :
    idFromStrSized 2 (idToText [1, 255]) = .ok [1, 255] ∧
      idFromStrSized 2 "AQ".toList = .error (.size 2 1) :=
  ⟨(c8_id_text_roundtrip 2 [1, 255] "AQ".toList rfl (by decide)).1,
    (c8_id_text_roundtrip 2 [1, 255] "AQ".toList rfl (by decide)).2 [1] (by decide)
      (by decide)⟩

/-- C10: the parser for the dynamically-sized `Id<Vec<u8>>` accepts every
string the base64url decoder accepts, whatever byte length results, and its
only possible error is the Base64 decode error — it never produces the
`Size` (length-mismatch) error, which only the fixed-size parser can
raise. -/
theorem c10_dyn_parse_any_length (s : List Char) :
    (∀ bs, b64Decode s = some bs → idFromStrDyn s = .ok bs) ∧
      (∀ e f, idFromStrDyn s ≠ .error (.size e f)) := by
  constructor
  · intro bs h
    unfold idFromStrDyn
    rw [h]
  · intro e f
    unfold idFromStrDyn
    cases hval : b64Decode s <;> simp

/-- Closed instance of `c10_dyn_parse_any_length`: the one-byte string
`"AQ"` and the three-byte string `"AQID"` both parse, although no single
fixed size fits both. -/
theorem c10_dyn_parse_any_length_witness :
    idFromStrDyn "AQ".toList = .ok [1] ∧ idFromStrDyn "AQID".toList = .ok [1, 2, 3] :=
  ⟨(c10_dyn_parse_any_length "AQ".toList).1 [1] (by decide),
    (c10_dyn_parse_any_length "AQID".toList).1 [1, 2, 3] (by decide)⟩

/-- A PHC-format hash string as `verify_hash` sees it: either a well-formed
record embedding the salt and the digest (what `PasswordHash::new` parses
out of the output of `hash_with_salt`), or a malformed string. -/
inductive PhcHash where
  | valid (salt : List Nat) (digest : List Nat)
  | malformed (raw : String)
deriving DecidableEq

/-- The `hash_with_salt` function of `src/crypto.rs` (lines 26–36): draw a
fresh random salt (passed in as `salt`, the randomness of the call), derive
the digest with Argon2 (`argon`, the external library's derivation function,
taking the salt and the input bytes), and return the PHC string embedding
the salt and the digest. -/
def hash_with_salt (argon : List Nat → List Nat → List Nat) (salt secret : List Nat) :
    PhcHash :=
  .valid salt (argon salt secret)

/-- The `verify_hash` function of `src/crypto.rs` (lines 42–50): if the PHC
string does not parse, return `false`; otherwise recompute the digest from
the input bytes with the embedded salt and compare. -/
def verify_hash (argon : List Nat → List Nat → List Nat) (secret : List Nat)
    (h : PhcHash) : Bool :=
  match h with
  | .malformed _ => false
  | .valid salt digest => argon salt secret == digest

/-- C9: verifying a secret against its own salted hash succeeds; for two
distinct secrets whose Argon2 digests under the drawn salt do not collide
(as holds for the real Argon2 outside a negligible collision event),
verification of one against the hash of the other fails; and verifying any
secret against a malformed PHC string returns `false` — a value, never an
error or a panic. -/
theorem c9_verify_salted (argon : List Nat → List Nat → List Nat)
    (salt s t : List Nat) (raw : String) (hst : s ≠ t)
    (hcol : argon salt s = argon salt t → s = t) :
    verify_hash argon s (hash_with_salt argon salt s) = true ∧
      verify_hash argon s (hash_with_salt argon salt t) = false ∧
      verify_hash argon s (.malformed raw) = false := by
  refine ⟨?_, ?_, rfl⟩
  · simp [verify_hash, hash_with_salt]
  · have hne : argon salt s ≠ argon salt t := fun he => hst (hcol he)
    simp [verify_hash, hash_with_salt, hne]

/-- Closed instance of `c9_verify_salted` with a concrete injective
derivation function: self-verification succeeds, cross-verification and a
malformed PHC string fail. -/
theorem c9_verify_salted_witness :
    verify_hash (fun salt secret => salt ++ secret) [1]
        (hash_with_salt (fun salt secret => salt ++ secret) [0] [1]) = true ∧
      verify_hash (fun salt secret => salt ++ secret) [1]
          (hash_with_salt (fun salt secret => salt ++ secret) [0] [2]) = false ∧
      verify_hash (fun salt secret => salt ++ secret) [1]
          (.malformed "not-a-valid-phc-string") = false := by
  have h := c9_verify_salted (fun salt secret => salt ++ secret) [0] [1] [2]
    "not-a-valid-phc-string" (by decide) (by simp)
  exact h
